import Mathlib

/-!
Shallow embedding of the fund-nowcast repository (src/main.py and
src/data_collector.py) over exact rational arithmetic, together with
theorems settling the behavioural claims about the estimator, the
per-holding quote fetch and the batch CSV export.
-/

namespace FundCalc

/-- A configured holding: line 10-21 of src/main.py (ticker, weight, name). -/
structure Holding where
  ticker : String
  name : String
  weight : ℚ
deriving DecidableEq, Repr

/-- One entry of the list built by fetch_stock_data (lines 75-82 / 84-91 of
src/main.py): the holding fields plus optional price, change and update time. -/
structure HoldingData where
  ticker : String
  name : String
  weight : ℚ
  price : Option ℚ
  change : Option ℚ
  updated : Option String
deriving DecidableEq, Repr

/-- Python truthiness of an optional float: None and 0.0 are falsy,
any other float is truthy.  Models the test `if current_price and prev_close:`
at line 72 of src/main.py. -/
def truthy : Option ℚ → Bool
  | none => false
  | some x => decide (x ≠ 0)

/-- Lines 71-73 of src/main.py: `change_pct = None`, then
`if current_price and prev_close: change_pct = ((current_price - prev_close) / prev_close) * 100`. -/
def change_pct_of (current_price prev_close : Option ℚ) : Option ℚ :=
  if truthy current_price && truthy prev_close then
    some ((current_price.getD 0 - prev_close.getD 0) / prev_close.getD 0 * 100)
  else none

/-- The data one network round-trip for a ticker can resolve inside the `try`
block of fetch_stock_data: the optional intraday price (lines 50-57), the
optional update-time string and the optional previous close (lines 60-69). -/
structure Quote where
  price : Option ℚ
  updated : Option String
  prevClose : Option ℚ
deriving DecidableEq, Repr

/-- Outcome of the `try` block of fetch_stock_data for one ticker: either the
resolved quote fields, or an exception caught by the bare `except` at line 83. -/
inductive FetchOutcome where
  | ok (q : Quote)
  | exn
deriving DecidableEq, Repr

/-- fetch_stock_data (lines 41-92 of src/main.py), with the external
market-data source abstracted as an oracle from ticker to fetch outcome.
Each holding is processed independently: on success the holding fields are
copied and change is derived by the lines-71-73 computation; on an exception
the holding fields are copied with price, change and updated all None. -/
def fetch_stock_data (oracle : String → FetchOutcome) (holdings_list : List Holding) :
    List HoldingData :=
  holdings_list.map fun holding =>
    match oracle holding.ticker with
    | FetchOutcome.ok q =>
        { ticker := holding.ticker
          name := holding.name
          weight := holding.weight
          price := q.price
          change := change_pct_of q.price q.prevClose
          updated := q.updated }
    | FetchOutcome.exn =>
        { ticker := holding.ticker
          name := holding.name
          weight := holding.weight
          price := none
          change := none
          updated := none }

/-- calculate_fund_change (lines 95-101 of src/main.py): filter to the
holdings with a non-None change, return 0 when none remain, otherwise
sum change*weight/100 over them and rescale by total_weight. -/
def calculate_fund_change (holdings_data : List HoldingData) (total_weight : ℚ) : ℚ :=
  let valid := holdings_data.filter fun h => h.change.isSome
  if valid.isEmpty then 0
  else
    let weighted_change := (valid.map fun h => h.change.getD 0 * h.weight / 100).sum
    weighted_change / total_weight * 100

/-- Python float division, which raises ZeroDivisionError on a zero divisor:
none models the raised exception. -/
def pydiv (a b : ℚ) : Option ℚ :=
  if b = 0 then none else some (a / b)

/-- calculate_fund_change with the division at line 100 given Python's
exception semantics (pydiv): the result is none exactly when the code would
raise ZeroDivisionError. -/
def calculate_fund_change_checked (holdings_data : List HoldingData) (total_weight : ℚ) :
    Option ℚ :=
  let valid := holdings_data.filter fun h => h.change.isSome
  if valid.isEmpty then some 0
  else
    let weighted_change := (valid.map fun h => h.change.getD 0 * h.weight / 100).sum
    (pydiv weighted_change total_weight).map fun q => q * 100

/-- State-passing rendering of calculate_fund_change: the holdings list is
threaded as explicit state through each statement of the body (the list
comprehension at line 96, the emptiness test at line 97, the sum at line 99),
so that mutation of the argument would be visible in the returned state. -/
def calculate_fund_change_run (holdings_data : List HoldingData) (total_weight : ℚ) :
    ℚ × List HoldingData :=
  let s0 := holdings_data
  let valid := s0.filter fun h => h.change.isSome
  let s1 := s0
  if valid.isEmpty then (0, s1)
  else
    let weighted_change := (valid.map fun h => h.change.getD 0 * h.weight / 100).sum
    let s2 := s1
    (weighted_change / total_weight * 100, s2)

/-- Line 163 of src/main.py: estimated_nav = baseline_nav * (1 + fund_change / 100). -/
def estimated_nav (baseline_nav fund_change : ℚ) : ℚ :=
  baseline_nav * (1 + fund_change / 100)

/-- Modelled from the spec: the scaled-estimate formula as the spec states it,
"Weighted contribution sum = Σ(changePct_i × weight_i) / 100 over the filtered
set" followed by "Scaled estimate = (weighted contribution sum /
totalCoverageWeight) × 100".  Used only to compare with
calculate_fund_change, which is translated from the source. -/
def spec_scaled_estimate (holdings : List HoldingData) (totalCoverageWeight : ℚ) : ℚ :=
  (holdings.filterMap fun h => h.change.map fun c => c * h.weight / 100).sum
    / totalCoverageWeight * 100

/-- src/data_collector.py line 52: the output file name for a ticker and run date. -/
def file_name (ticker run_date : String) : String :=
  ticker ++ "_last_60d_" ++ run_date ++ ".csv"

/-- fetch_history (lines 12-23 of src/data_collector.py), with yf.download
abstracted as an oracle from ticker to row list and reset_index as an opaque
row-list transformation: an empty frame is returned as is, a non-empty one is
reset. -/
def fetch_history {α : Type} (download : String → List α) (reset_index : List α → List α)
    (ticker : String) : List α :=
  let df := download ticker
  if df.isEmpty then df else reset_index df

/-- The write events performed by the loop of main (lines 47-54 of
src/data_collector.py): for each ticker in order, fetch its history; an empty
history is skipped (`continue`), otherwise one file named by the ticker and
run date is written with that history as content. -/
def collector_writes {α : Type} (download : String → List α) (reset_index : List α → List α)
    (tickers : List String) (run_date : String) : List (String × List α) :=
  tickers.filterMap fun ticker =>
    let df := fetch_history download reset_index ticker
    if df.isEmpty then none else some (file_name ticker run_date, df)

/-- The input transformation of the linearity claim: double every defined
change, keeping every other field fixed. -/
def double_changes (holdings : List HoldingData) : List HoldingData :=
  holdings.map fun h => { h with change := h.change.map fun c => 2 * c }

/-- A concrete quote oracle returning, for every ticker, a present intraday
price of 0 together with a present previous close of 100. -/
def c2_oracle : String → FetchOutcome :=
  fun _ => FetchOutcome.ok ⟨some 0, some "09:00 AM CST", some 100⟩

/-- The map over the valid sublist in calculate_fund_change equals a
filterMap over the whole list that keeps exactly the holdings with a
defined change. -/
lemma valid_map_eq_filterMap (l : List HoldingData) :
    (l.filter fun h => h.change.isSome).map (fun h => h.change.getD 0 * h.weight / 100)
      = l.filterMap fun h => h.change.map fun c => c * h.weight / 100 := by
  induction l with
  | nil => rfl
  | cons x xs ih =>
    cases hx : x.change with
    | none => simp [List.filter_cons, List.filterMap_cons, hx, ih]
    | some c => simp [List.filter_cons, List.filterMap_cons, hx, ih]

/-- calculate_fund_change agrees with the branch-free spec formula on every
input: when no holding has a defined change both sides are 0, and otherwise
they are the same expression. -/
lemma calc_eq_spec (l : List HoldingData) (tw : ℚ) :
    calculate_fund_change l tw = spec_scaled_estimate l tw := by
  unfold calculate_fund_change spec_scaled_estimate
  rw [← valid_map_eq_filterMap]
  by_cases hv : (l.filter fun h => h.change.isSome).isEmpty
  · simp [hv, List.isEmpty_iff.mp hv]
  · simp [hv]

/-- For a fixed run date, distinct tickers give distinct output file names. -/
lemma file_name_inj (d : String) : Function.Injective fun t => file_name t d := by
  intro a b hab
  unfold file_name at hab
  apply String.ext
  have hd := congrArg String.data hab
  simp only [String.data_append, List.append_assoc] at hd
  exact List.append_cancel_right
    (by simpa only [List.append_assoc] using hd)

/-- Claim C1: for every list of holdings and every totalCoverageWeight > 0,
calculate_fund_change returns (sum over holdings with defined changePct of
changePct_i * weight_i / 100) / totalCoverageWeight * 100; in particular for
holdings [(weight=10, change=+5), (weight=5, change=-10)] and
totalCoverageWeight=15 it returns 0. -/
theorem calculate_fund_change_matches_spec_formula
    (holdings : List HoldingData) (tw : ℚ) (htw : 0 < tw) :
    calculate_fund_change holdings tw = spec_scaled_estimate holdings tw ∧
    calculate_fund_change
      [⟨"A", "A", 10, none, some 5, none⟩, ⟨"B", "B", 5, none, some (-10), none⟩] 15 = 0 := by
  have h0 := htw
  refine ⟨calc_eq_spec holdings tw, ?hex⟩
  norm_num [calculate_fund_change, List.filter, List.isEmpty]

/-- Claim C1, witness: the theorem applied at a concrete list and
totalCoverageWeight 15. -/
theorem calculate_fund_change_matches_spec_formula_check : (0:ℚ) < 15 ∧
    (calculate_fund_change [] 15 = spec_scaled_estimate [] 15 ∧
     calculate_fund_change
       [⟨"A", "A", 10, none, some 5, none⟩, ⟨"B", "B", 5, none, some (-10), none⟩] 15 = 0) :=
  ⟨by decide, calculate_fund_change_matches_spec_formula [] 15 (by decide)⟩

/-- Claim C2, counterexample: with a present intraday price equal to 0 and a
present previous close equal to 100, the holding processed by
fetch_stock_data gets change = None, not the value
(0 - 100) / 100 * 100 = -100 the claim requires when both fields are present
and previousClose is nonzero: line 72 of src/main.py tests Python truthiness,
which also rejects a present price of 0.0. -/
theorem change_pct_zero_price_counterexample :
    (fetch_stock_data c2_oracle [⟨"NVDA", "NVIDIA", 10⟩]).map HoldingData.change = [none] ∧
    ¬ (fetch_stock_data c2_oracle [⟨"NVDA", "NVIDIA", 10⟩]).map HoldingData.change
        = [some (((0:ℚ) - 100) / 100 * 100)] := by
  have h : change_pct_of (some 0) (some 100) = none := by decide
  constructor
  · simp [fetch_stock_data, c2_oracle, h]
  · simp [fetch_stock_data, c2_oracle, h]

/-- Claim C2, amended: changePct is defined, and equals
(price - previousClose) / previousClose * 100, exactly when the current
price and the previous close are both present, the price is nonzero and the
previous close is nonzero; otherwise it is None.  In particular a previous
close of 0, or a missing one, always yields None and never a
division-by-zero result. -/
theorem change_pct_characterized (cp pc : Option ℚ) :
    (∀ x : ℚ, change_pct_of cp pc = some x ↔
      ∃ p c, cp = some p ∧ pc = some c ∧ p ≠ 0 ∧ c ≠ 0 ∧ x = (p - c) / c * 100) ∧
    change_pct_of cp (some 0) = none ∧ change_pct_of cp none = none := by
  refine ⟨?hiff, ?hzero, ?hnone⟩
  · intro x
    cases cp with
    | none => simp [change_pct_of, truthy]
    | some p =>
      cases pc with
      | none => simp [change_pct_of, truthy]
      | some c =>
        by_cases hp : p = 0
        · simp [change_pct_of, truthy, hp]
        · by_cases hc : c = 0
          · simp [change_pct_of, truthy, hp, hc]
          · simp [change_pct_of, truthy, hp, hc]
            constructor
            · intro hx
              exact hx.symm
            · intro hx
              exact hx.symm
  · cases cp <;> simp [change_pct_of, truthy]
  · cases cp <;> simp [change_pct_of, truthy]

/-- Claim C3: if no holding has a defined changePct, calculate_fund_change
returns 0 for every total weight, and the estimated NAV computed from that
zero estimate is exactly the baseline NAV. -/
theorem no_defined_change_gives_zero (holdings : List HoldingData) (tw nav : ℚ)
    (hnone : ∀ h ∈ holdings, h.change = none) :
    calculate_fund_change holdings tw = 0 ∧
    estimated_nav nav (calculate_fund_change holdings tw) = nav := by
  have hf : holdings.filter (fun h => h.change.isSome) = [] := by
    refine List.filter_eq_nil_iff.mpr ?hall
    intro a ha
    simp [hnone a ha]
  have h0 : calculate_fund_change holdings tw = 0 := by
    unfold calculate_fund_change
    simp [hf]
  refine ⟨h0, ?hnav⟩
  rw [h0]
  norm_num [estimated_nav]

/-- Claim C3, witness: a one-holding list with change = None, total weight 15
and baseline NAV 100. -/
theorem no_defined_change_gives_zero_check :
    (∀ h ∈ ([⟨"A", "A", 10, none, none, none⟩] : List HoldingData), h.change = none) ∧
    (calculate_fund_change [⟨"A", "A", 10, none, none, none⟩] 15 = 0 ∧
     estimated_nav 100 (calculate_fund_change [⟨"A", "A", 10, none, none, none⟩] 15) = 100) :=
  ⟨by decide, no_defined_change_gives_zero [⟨"A", "A", 10, none, none, none⟩] 15 100 (by decide)⟩

/-- Claim C4: under totalCoverageWeight > 0, calculate_fund_change with
Python division semantics (ZeroDivisionError modelled as none) never fails
and agrees with the total function on every input list. -/
theorem calculate_fund_change_total_no_div_zero
    (holdings : List HoldingData) (tw : ℚ) (htw : 0 < tw) :
    calculate_fund_change_checked holdings tw = some (calculate_fund_change holdings tw) := by
  unfold calculate_fund_change_checked calculate_fund_change pydiv
  by_cases hv : (holdings.filter fun h => h.change.isSome).isEmpty
  · simp [hv]
  · simp [hv, ne_of_gt htw]

/-- Claim C4, witness: the theorem applied at a one-holding list and total
weight 15. -/
theorem calculate_fund_change_total_no_div_zero_check : (0:ℚ) < 15 ∧
    calculate_fund_change_checked [⟨"A", "A", 10, none, some 5, none⟩] 15
      = some (calculate_fund_change [⟨"A", "A", 10, none, some 5, none⟩] 15) :=
  ⟨by decide, calculate_fund_change_total_no_div_zero
    [⟨"A", "A", 10, none, some 5, none⟩] 15 (by decide)⟩

/-- Claim C5: doubling every defined changePct while keeping the weights and
the total coverage weight fixed doubles the result of calculate_fund_change. -/
theorem calculate_fund_change_linear_scaling
    (holdings : List HoldingData) (tw : ℚ) (htw : 0 < tw) :
    calculate_fund_change (double_changes holdings) tw
      = 2 * calculate_fund_change holdings tw := by
  have h0 := htw
  rw [calc_eq_spec, calc_eq_spec]
  unfold spec_scaled_estimate double_changes
  rw [List.filterMap_map]
  have hfun : ((fun h : HoldingData => h.change.map fun c => c * h.weight / 100) ∘
        fun h : HoldingData => { h with change := h.change.map fun c => 2 * c })
      = fun h : HoldingData => (h.change.map fun c => c * h.weight / 100).map fun c => 2 * c := by
    funext h
    cases hc : h.change with
    | none => simp [Function.comp, hc]
    | some c =>
      simp [Function.comp, hc]
      ring
  rw [hfun, ← List.map_filterMap]
  have hsum : ∀ L : List ℚ, (L.map fun c => 2 * c).sum = 2 * L.sum := by
    intro L
    induction L with
    | nil => simp
    | cons x xs ih => simp [ih]; ring
  rw [hsum]
  ring

/-- Claim C5, witness: the theorem applied at a one-holding list with
change +5 and total weight 15. -/
theorem calculate_fund_change_linear_scaling_check : (0:ℚ) < 15 ∧
    calculate_fund_change (double_changes [⟨"A", "A", 10, none, some 5, none⟩]) 15
      = 2 * calculate_fund_change [⟨"A", "A", 10, none, some 5, none⟩] 15 :=
  ⟨by decide, calculate_fund_change_linear_scaling
    [⟨"A", "A", 10, none, some 5, none⟩] 15 (by decide)⟩

/-- Claim C6: for the single holding (weight=64.57, change=+1) with
totalCoverageWeight 64.57 and baseline NAV 73.81, the scaled estimate is
exactly 1 and the estimated NAV is exactly 74.5481 in rational arithmetic. -/
theorem single_holding_exact_values :
    calculate_fund_change [⟨"H", "H", 64.57, none, some 1, none⟩] 64.57 = 1 ∧
    estimated_nav 73.81
      (calculate_fund_change [⟨"H", "H", 64.57, none, some 1, none⟩] 64.57) = 74.5481 := by
  have h1 : calculate_fund_change [⟨"H", "H", 64.57, none, some 1, none⟩] 64.57 = 1 := by
    norm_num [calculate_fund_change, List.filter, List.isEmpty]
  refine ⟨h1, ?hnav⟩
  rw [h1]
  norm_num [estimated_nav]

/-- Claim C7: fetch_stock_data returns one result per input holding in the
same order (equal lengths, index-wise correspondence), with ticker, name and
weight copied unchanged; when the fetch of a holding fails, that entry has
price, change and updated all None, and every other index is unaffected. -/
theorem fetch_stock_data_shape_and_failure
    (oracle : String → FetchOutcome) (hs : List Holding) :
    (fetch_stock_data oracle hs).length = hs.length ∧
    ∀ i : ℕ, ∀ h : Holding, hs[i]? = some h →
      ((fetch_stock_data oracle hs)[i]?.map HoldingData.ticker = some h.ticker ∧
       (fetch_stock_data oracle hs)[i]?.map HoldingData.name = some h.name ∧
       (fetch_stock_data oracle hs)[i]?.map HoldingData.weight = some h.weight ∧
       (oracle h.ticker = FetchOutcome.exn →
         (fetch_stock_data oracle hs)[i]? =
           some ⟨h.ticker, h.name, h.weight, none, none, none⟩)) := by
  constructor
  · simp [fetch_stock_data]
  · intro i h hi
    simp only [fetch_stock_data, List.getElem?_map, hi]
    cases hc : oracle h.ticker with
    | ok q => simp [hc]
    | exn => simp [hc]

/-- Claim C7, witness: a one-holding list whose fetch raises, applied at
index 0. -/
theorem fetch_stock_data_shape_and_failure_check :
    (([⟨"NVDA", "NVIDIA", 10⟩] : List Holding)[0]? = some ⟨"NVDA", "NVIDIA", 10⟩) ∧
    ((fetch_stock_data (fun _ => FetchOutcome.exn)
        [⟨"NVDA", "NVIDIA", 10⟩])[0]?.map HoldingData.ticker = some "NVDA" ∧
     (fetch_stock_data (fun _ => FetchOutcome.exn)
        [⟨"NVDA", "NVIDIA", 10⟩])[0]?.map HoldingData.name = some "NVIDIA" ∧
     (fetch_stock_data (fun _ => FetchOutcome.exn)
        [⟨"NVDA", "NVIDIA", 10⟩])[0]?.map HoldingData.weight = some 10 ∧
     ((fun _ : String => FetchOutcome.exn) "NVDA" = FetchOutcome.exn →
       (fetch_stock_data (fun _ => FetchOutcome.exn) [⟨"NVDA", "NVIDIA", 10⟩])[0]? =
         some ⟨"NVDA", "NVIDIA", 10, none, none, none⟩)) :=
  ⟨rfl, (fetch_stock_data_shape_and_failure (fun _ => FetchOutcome.exn)
    [⟨"NVDA", "NVIDIA", 10⟩]).2 0 ⟨"NVDA", "NVIDIA", 10⟩ rfl⟩

/-- Claim C8: calculate_fund_change is pure and deterministic: the
state-passing rendering of its body returns the input holdings list
unchanged alongside the value, and equal arguments give equal results. -/
theorem calculate_fund_change_pure (holdings : List HoldingData) (tw : ℚ) :
    calculate_fund_change_run holdings tw = (calculate_fund_change holdings tw, holdings) ∧
    (∀ holdings2 : List HoldingData, ∀ tw2 : ℚ, holdings2 = holdings → tw2 = tw →
      calculate_fund_change holdings2 tw2 = calculate_fund_change holdings tw) := by
  constructor
  · unfold calculate_fund_change_run calculate_fund_change
    by_cases hv : (holdings.filter fun h => h.change.isSome).isEmpty
    · simp [hv]
    · simp [hv]
  · intro holdings2 tw2 h2 ht
    rw [h2, ht]

/-- Claim C8, witness: the theorem applied at a concrete one-holding list,
with the determinism conjunct instantiated at equal concrete arguments. -/
theorem calculate_fund_change_pure_check :
    (calculate_fund_change_run [⟨"A", "A", 10, none, some 5, none⟩] 15
      = (calculate_fund_change [⟨"A", "A", 10, none, some 5, none⟩] 15,
         [⟨"A", "A", 10, none, some 5, none⟩]) ∧
     calculate_fund_change [⟨"A", "A", 10, none, some 5, none⟩] 15
       = calculate_fund_change [⟨"A", "A", 10, none, some 5, none⟩] 15) :=
  ⟨(calculate_fund_change_pure [⟨"A", "A", 10, none, some 5, none⟩] 15).1,
   (calculate_fund_change_pure [⟨"A", "A", 10, none, some 5, none⟩] 15).2
     [⟨"A", "A", 10, none, some 5, none⟩] 15 rfl rfl⟩

/-- Claim C9: the batch export writes, in input order, exactly one file per
ticker with a non-empty fetched history, named {ticker}_last_60d_{date}.csv
with that history as content; counting write events by file name, a ticker
with empty history produces none, and a ticker with non-empty history
produces as many as its occurrences in the input, with every other ticker
still processed. -/
theorem collector_one_file_per_nonempty_ticker
    {α : Type} (download : String → List α) (reset_index : List α → List α)
    (tickers : List String) (run_date : String) :
    collector_writes download reset_index tickers run_date
      = (tickers.filter fun t => !(fetch_history download reset_index t).isEmpty).map
          (fun t => (file_name t run_date, fetch_history download reset_index t)) ∧
    ∀ t : String,
      ((collector_writes download reset_index tickers run_date).map Prod.fst).count
          (file_name t run_date)
        = if (fetch_history download reset_index t).isEmpty then 0
          else tickers.count t := by
  have h1 : collector_writes download reset_index tickers run_date
      = (tickers.filter fun t => !(fetch_history download reset_index t).isEmpty).map
          (fun t => (file_name t run_date, fetch_history download reset_index t)) := by
    induction tickers with
    | nil => rfl
    | cons x xs ih =>
      by_cases hx : (fetch_history download reset_index x).isEmpty
      · simp [collector_writes, List.filterMap_cons, List.filter_cons, hx] at ih ⊢
        exact ih
      · simp [collector_writes, List.filterMap_cons, List.filter_cons, hx] at ih ⊢
        exact ih
  refine ⟨h1, ?hcount⟩
  intro t
  rw [h1, List.map_map]
  have hmm : ((fun p : String × List α => p.1) ∘
        fun t => (file_name t run_date, fetch_history download reset_index t))
      = fun t => file_name t run_date := rfl
  rw [hmm, List.count_map_of_injective _ _ (file_name_inj run_date)]
  by_cases ht : (fetch_history download reset_index t).isEmpty
  · rw [if_pos ht]
    rw [List.count_eq_zero]
    intro hmem
    have hpt := (List.mem_filter.mp hmem).2
    simp [ht] at hpt
  · rw [if_neg ht]
    exact List.count_filter (by simp [ht])

/-- Claim C10: the result of calculate_fund_change is invariant under
permutation of the input holdings list. -/
theorem calculate_fund_change_perm_invariant
    (l1 l2 : List HoldingData) (tw : ℚ) (htw : 0 < tw) (hperm : l1.Perm l2) :
    calculate_fund_change l1 tw = calculate_fund_change l2 tw := by
  have h0 := htw
  rw [calc_eq_spec, calc_eq_spec]
  unfold spec_scaled_estimate
  rw [(hperm.filterMap _).sum_eq]

/-- Claim C10, witness: the theorem applied to a two-element list and its
swap. -/
theorem calculate_fund_change_perm_invariant_check : ((0:ℚ) < 15 ∧
    ([⟨"A", "A", 10, none, some 5, none⟩, ⟨"B", "B", 5, none, some (-10), none⟩] :
        List HoldingData).Perm
      [⟨"B", "B", 5, none, some (-10), none⟩, ⟨"A", "A", 10, none, some 5, none⟩]) ∧
    calculate_fund_change
        [⟨"A", "A", 10, none, some 5, none⟩, ⟨"B", "B", 5, none, some (-10), none⟩] 15
      = calculate_fund_change
        [⟨"B", "B", 5, none, some (-10), none⟩, ⟨"A", "A", 10, none, some 5, none⟩] 15 :=
  ⟨⟨by decide, List.Perm.swap _ _ _⟩,
   calculate_fund_change_perm_invariant _ _ 15 (by decide) (List.Perm.swap _ _ _)⟩

end FundCalc
